import Mathlib

/-!
Verification of the extraction engine of `scraper/src/strategies/abstract_strategy.py`
(class `AbstractStrategy`).

Modelling conventions (shallow embedding):
* Python strings are `List Char` (named `Str`).  A Python value of `None` for a
  text/tail field is modelled as the empty list: the source only ever tests
  these fields for truthiness (`if node.text`, `if e.tail`, `elif node.text is
  not None` inside a truthy guard) or concatenates them, so `None` and `""`
  are observationally identical there.
* Python exceptions are modelled with `Except PyErr`, propagated by explicit
  matches; functions of the source that catch exceptions
  (`try ... except (TypeError, KeyError)`) are modelled with `pyTry`, which
  turns any error into the `except` branch's default.
* Configuration dictionaries (`selectors[level]`) are association lists; a key
  that may be absent from a level's dictionary is a `KeyVal` (absent keys raise
  `KeyError` when subscripted, which the guarded getters catch).
* The process-wide `AbstractStrategy.keep_tags` list used by `escape` is
  threaded as an explicit `keep_tags : List Str` parameter.
* Generators (`itertext`) are modelled as the eagerly collected list of their
  yields; an exception raised during iteration makes the whole run an error,
  which is what the only consumer (`get_text`, which drains the generator)
  observes.
-/

/-- Python strings, modelled as lists of characters. -/
abbrev Str := List Char

/-- Literal helper: the character list of a Lean string literal. -/
def str (s : String) : Str := s.data

/-- The ASCII single-quote character, written via its code point. -/
def squote : Char := Char.ofNat 39

/-- Python exceptions that the modelled code can raise or catch. -/
inductive PyErr where
  | keyError
  | typeError
  | valueError
deriving DecidableEq, Repr

deriving instance DecidableEq for Except

/-- Runs a computation under a Python `try:` with a default produced by the
`except (TypeError, KeyError):` branch; any raised error yields the default. -/
def pyTry {α : Type} (body : Except PyErr α) (dflt : α) : α :=
  match body with
  | Except.ok v => v
  | Except.error _ => dflt

/-- Python substring test helper: `pat` is a prefix of `s`. -/
def isSubAt : Str → Str → Bool
  | [], _ => true
  | _ :: _, [] => false
  | p :: ps, c :: cs => p == c && isSubAt ps cs

/-- Python substring containment, the semantics of `pat in s` for strings.
Note `hasSub [] s = true` for every `s`, exactly as in Python. -/
def hasSub (pat : Str) : Str → Bool
  | [] => pat.isEmpty
  | c :: cs => isSubAt pat (c :: cs) || hasSub pat cs

/-- Fueled core of `replaceAll`.  The fuel starts at the string's length and
drops by one per step while each step consumes at least one character, so the
fuel never runs out on the initial call and the `0` fallback is unreachable. -/
def replaceAllF (pat rep : Str) : Nat → Str → Str
  | _, [] => []
  | 0, s => s
  | Nat.succ f, c :: cs =>
    if !pat.isEmpty && isSubAt pat (c :: cs) then
      rep ++ replaceAllF pat rep f (cs.drop (pat.length - 1))
    else
      c :: replaceAllF pat rep f cs

/-- Python `s.replace(pat, rep)`: replaces every non-overlapping occurrence of
`pat`, scanning left to right.  (For the empty pattern this model leaves `s`
unchanged; the source only ever replaces non-empty patterns, namely escaped
tag literals and `"&amp;"`.) -/
def replaceAll (pat rep s : Str) : Str := replaceAllF pat rep s.length s

/-- Python `html.escape(c, quote=True)` restricted to a single character,
the building block of `html_escape`. -/
def html_escape_char (c : Char) : Str :=
  if c = '&' then str "&amp;"
  else if c = '<' then str "&lt;"
  else if c = '>' then str "&gt;"
  else if c = Char.ofNat 34 then str "&quot;"
  else if c = squote then str "&#x27;"
  else [c]

/-- Python `html.escape(s, quote=True)`.  The source's sequential
`str.replace` chain (first `&`, then `<`, `>`, `"`, `'`) is equivalent to this
character-wise map because the replacement entities introduce no characters
that the later replacements target. -/
def html_escape (s : Str) : Str := s.foldr (fun c acc => html_escape_char c ++ acc) []

/-- One iteration of the `for tag in AbstractStrategy.keep_tags:` loop of
`escape`: the HTML-escaped forms of the tag's opening and closing literals
are replaced by the raw literals. -/
def escapeTagStep (acc : Str) (tag : Str) : Str :=
  let opening := str "<" ++ tag ++ str ">"
  let closing := str "</" ++ tag ++ str ">"
  replaceAll (html_escape closing) closing
    (replaceAll (html_escape opening) opening acc)

/-- Source `AbstractStrategy.escape` (the "selective unescape"): for every
kept tag, the HTML-escaped forms of its opening and closing tag literals are
replaced by the raw literals, and finally `&amp;` becomes `&`. -/
def escape (keep_tags : List Str) (text : Str) : Str :=
  replaceAll (str "&amp;") (str "&") (keep_tags.foldl escapeTagStep text)

/-- Whitespace stripped by Python's bare `str.strip()` (ASCII range: space,
tab, newline, vertical tab, form feed, carriage return). -/
def isPySpace (c : Char) : Bool :=
  c == ' ' || c == Char.ofNat 9 || c == Char.ofNat 10 ||
  c == Char.ofNat 11 || c == Char.ofNat 12 || c == Char.ofNat 13

/-- Drops characters satisfying `p` from both ends of `s`. -/
def dropEnds (p : Char → Bool) (s : Str) : Str :=
  ((s.dropWhile p).reverse.dropWhile p).reverse

/-- Python `s.strip()` (no argument). -/
def pyStrip (s : Str) : Str := dropEnds isPySpace s

/-- Python `s.strip(chars)`: strips any character contained in `chars` from
both ends. -/
def pyStripChars (chars : Str) (s : Str) : Str := dropEnds (fun c => chars.contains c) s

/-- Tag of a document node.  `tstr` is an ordinary element tag; `tnone`
models `node.tag is None` (which `itertext` lets through its type test);
`tother` models the non-string tags of comment/processing-instruction nodes
(which `itertext` rejects). -/
inductive HTag where
  | tstr (t : Str)
  | tnone
  | tother
deriving DecidableEq, Repr

/-- A document node as the source reads it: tag, ordered attribute list
(keys unique), inline text, ordered children, tail text. -/
inductive HNode where
  | mk : HTag → List (Str × Str) → Str → List HNode → Str → HNode

/-- Tag accessor. -/
def HNode.tag : HNode → HTag
  | .mk t _ _ _ _ => t

/-- Attribute-list accessor. -/
def HNode.attrs : HNode → List (Str × Str)
  | .mk _ a _ _ _ => a

/-- Inline-text accessor. -/
def HNode.text : HNode → Str
  | .mk _ _ t _ _ => t

/-- Children accessor. -/
def HNode.children : HNode → List HNode
  | .mk _ _ _ c _ => c

/-- Tail-text accessor. -/
def HNode.tail : HNode → Str
  | .mk _ _ _ _ t => t

/-- Rebuilds a node with a new tail. -/
def setTail : HNode → Str → HNode
  | .mk tg a tx c _, t => .mk tg a tx c t

/-- A per-level configuration key: either absent from the level's dictionary
(subscripting raises `KeyError`) or present with a value. -/
inductive KeyVal (α : Type) where
  | missing
  | val (v : α)
deriving DecidableEq, Repr

/-- One level's configuration dictionary, with the four keys the extraction
code reads.  Each present value may itself be Python `None`. -/
structure LevelCfg where
  strip_chars : KeyVal (Option Str)
  classname_exclude : KeyVal (Option (List Str))
  meta_tag : KeyVal (Option Bool)
  keep_tags : KeyVal (Option (List (Str × Option (List Str))))
deriving DecidableEq

/-- A selectors set: the mapping from level name to level configuration. -/
abbrev Selectors := List (Str × LevelCfg)

/-- Python dictionary subscript `d[k]`: `KeyError` when the key is absent. -/
def lookupDict {α : Type} (d : List (Str × α)) (k : Str) : Except PyErr α :=
  match d.find? (fun kv => kv.1 == k) with
  | some kv => Except.ok kv.2
  | none => Except.error PyErr.keyError

/-- Subscript access to a `KeyVal`: absent keys raise `KeyError`. -/
def getKey {α : Type} : KeyVal α → Except PyErr α
  | KeyVal.missing => Except.error PyErr.keyError
  | KeyVal.val v => Except.ok v

/-- The compound subscript `selectors[level]` as the guarded getters perform
it: `selectors` may be Python `None` (subscripting `None` raises `TypeError`,
as the callers' default arguments allow) and `level` may be `None` (not a
key, so `KeyError`). -/
def subscriptLevel (sels : Option Selectors) (level : Option Str) : Except PyErr LevelCfg :=
  match sels with
  | none => Except.error PyErr.typeError
  | some s =>
    match level with
    | none => Except.error PyErr.keyError
    | some l => lookupDict s l

/-- Source `get_strip_chars`: `selectors[level]['strip_chars']` with no
`try`/`except` around it, falling back to the site-wide default only when the
stored value is `None`.  `config_strip_chars` is `self.config.strip_chars`. -/
def get_strip_chars (config_strip_chars : Option Str) (level : Str)
    (selectors : Selectors) : Except PyErr (Option Str) :=
  match lookupDict selectors level with
  | Except.error e => Except.error e
  | Except.ok cfg =>
    match getKey cfg.strip_chars with
    | Except.error e => Except.error e
    | Except.ok none => Except.ok config_strip_chars
    | Except.ok (some s) => Except.ok (some s)

/-- Source `get_classnames_to_skip`: guarded lookup of
`selectors[level]['classname_exclude']`, with `except (TypeError, KeyError)`
returning `None`. -/
def get_classnames_to_skip (level : Option Str) (sels : Option Selectors) :
    Option (List Str) :=
  pyTry
    (match subscriptLevel sels level with
     | Except.error e => Except.error e
     | Except.ok cfg => getKey cfg.classname_exclude)
    none

/-- Source `get_node_classname`: the node's `class` attribute value, with
`except (TypeError, KeyError, IndexError)` returning the empty string. -/
def get_node_classname (n : HNode) : Str :=
  match (n.attrs.filter (fun kv => kv.1 == str "class")).head? with
  | some kv => kv.2
  | none => []

/-- Source `will_skip_node`: skip when any configured excluded class name is
contained (Python `in`, substring containment) in the node's class
attribute. -/
def will_skip_node (n : HNode) (level : Option Str) (sels : Option Selectors) : Bool :=
  match get_classnames_to_skip level sels with
  | none => false
  | some cs => cs.any (fun c => hasSub c (get_node_classname n))

/-- Source `use_meta_content`: guarded lookup of
`selectors[level]['meta_tag']`, exceptions giving `False`, and a final
`or False` collapsing a stored `None` to `False`. -/
def use_meta_content (level : Option Str) (sels : Option Selectors) : Bool :=
  (pyTry
    (match subscriptLevel sels level with
     | Except.error e => Except.error e
     | Except.ok cfg => getKey cfg.meta_tag)
    none).getD false

/-- Source `get_meta_content`: `node.attrib['content'] or ''`.  The subscript
raises `KeyError` when the attribute is absent; an empty stored value stays
empty via `or ''`. -/
def get_meta_content (n : HNode) : Except PyErr Str :=
  match n.attrs.find? (fun kv => kv.1 == str "content") with
  | some kv => Except.ok kv.2
  | none => Except.error PyErr.keyError

/-- Source `get_allowed_node_attrs`: guarded lookup of
`selectors[level]['keep_tags'][node.tag]` (a stored `None` for `keep_tags`
makes the inner subscript raise `TypeError`; a non-string node tag is not a
key; a stored `None` for the tag's list lands in the same `None` result),
then, if the tag is kept, the node's attribute items filtered to the
allow-listed names, in the node's original attribute order. -/
def get_allowed_node_attrs (n : HNode) (level : Option Str) (sels : Option Selectors) :
    Option (List (Str × Str)) :=
  let allowed : Option (List Str) :=
    pyTry
      (match subscriptLevel sels level with
       | Except.error e => Except.error e
       | Except.ok cfg =>
         match getKey cfg.keep_tags with
         | Except.error e => Except.error e
         | Except.ok none => Except.error PyErr.typeError
         | Except.ok (some m) =>
           match n.tag with
           | HTag.tstr t => lookupDict m t
           | _ => Except.error PyErr.keyError)
      none
  match allowed with
  | none => none
  | some attrsAllowed => some (n.attrs.filter (fun kv => attrsAllowed.contains kv.1))

/-- The non-string case of `node.tag` concatenated into markup never happens
(the keep-tags lookup fails first), so only the `tstr` case is meaningful. -/
def tagChars : HTag → Str
  | HTag.tstr t => t
  | _ => []

/-- The f-string fragment of the source, `f" {k}='{v}'"`. -/
def attrFrag (kv : Str × Str) : Str :=
  ' ' :: kv.1 ++ '=' :: squote :: kv.2 ++ [squote]

/-- The source's `' '.join([f" {k}='{v}'" for k, v in node_attrs_to_keep])`. -/
def node_attrs_str (kvs : List (Str × Str)) : Str :=
  List.intercalate [' '] (kvs.map attrFrag)

/-- The reconstructed minimal wrapper fragment
`'<' + node.tag + node_attrs_str + '>' + text + '</' + node.tag + '>'`. -/
def wrapTag (tag : HTag) (kvs : List (Str × Str)) (t : Str) : Str :=
  str "<" ++ tagChars tag ++ node_attrs_str kvs ++ str ">" ++ t ++
    str "</" ++ tagChars tag ++ str ">"

/-- The emission part of one `itertext` step: under the guard
`node.text or node.tag == 'img' or node.tag == 'meta'`, the node's own
fragment is its meta content (in meta-tag mode) or its inline text, wrapped
in a reconstructed minimal tag when the tag is in the level's keep-tags. -/
def itertextHead (n : HNode) (level : Option Str) (sels : Option Selectors) :
    Except PyErr (List Str) :=
  if n.text ≠ [] ∨ n.tag = HTag.tstr (str "img") ∨ n.tag = HTag.tstr (str "meta") then
    match (if use_meta_content level sels then get_meta_content n else Except.ok n.text) with
    | Except.error e => Except.error e
    | Except.ok t =>
      match get_allowed_node_attrs n level sels with
      | none => Except.ok [t]
      | some kvs => Except.ok [wrapTag n.tag kvs t]
  else Except.ok []

mutual
/-- Source `itertext`: the recursive extraction walker, as the list of the
fragments its generator yields for one node.  Non-string tags yield nothing;
skipped nodes yield nothing and are not descended into; the node's own
fragment (see `itertextHead`) comes first, then each child's fragments in
order, each child followed by its non-empty tail. -/
def itertext (n : HNode) (level : Option Str) (sels : Option Selectors) :
    Except PyErr (List Str) :=
  match n with
  | .mk tag _attrs _text children _tail =>
    match tag with
    | HTag.tother => Except.ok []
    | _ =>
      if will_skip_node n level sels then Except.ok []
      else
        match itertextHead n level sels with
        | Except.error e => Except.error e
        | Except.ok head =>
          match itertextList children level sels with
          | Except.error e => Except.error e
          | Except.ok rest => Except.ok (head ++ rest)
/-- The `for e in node:` loop of `itertext`: each child's fragments in order,
then the child's tail as its own fragment when the tail is non-empty. -/
def itertextList (l : List HNode) (level : Option Str) (sels : Option Selectors) :
    Except PyErr (List Str) :=
  match l with
  | [] => Except.ok []
  | e :: rest =>
    match itertext e level sels with
    | Except.error err => Except.error err
    | Except.ok s =>
      match itertextList rest level sels with
      | Except.error err => Except.error err
      | Except.ok r => Except.ok (s ++ (if e.tail ≠ [] then [e.tail] else []) ++ r)
end

/-- An element handed to `get_text`: either a plain string (an XPath literal
result) or a document node. -/
inductive SelElem where
  | eStr (s : Str)
  | eNode (n : HNode)

/-- The text-gathering stage of `get_text`: a string element is used as-is, a
node is walked and its fragments concatenated each behind one space
(`text = text + " " + s`). -/
def getRawText (el : SelElem) (level : Option Str) (sels : Option Selectors) :
    Except PyErr Str :=
  match el with
  | SelElem.eStr s => Except.ok s
  | SelElem.eNode n =>
    match itertext n level sels with
    | Except.error e => Except.error e
    | Except.ok frags => Except.ok (frags.foldl (fun acc s => acc ++ [' '] ++ s) [])

/-- The stripping stage of `get_text`: strip whitespace unconditionally,
then the configured strip characters when there are some. -/
def stripStage (strip_chars : Option Str) (text0 : Str) : Str :=
  match strip_chars with
  | none => pyStrip text0
  | some cs => pyStripChars cs (pyStrip text0)

/-- The normalization stage of `get_text`: after stripping, an empty
remainder is `None`, otherwise the selective unescape is applied. -/
def normalizeText (keep_tags : List Str) (strip_chars : Option Str) (text0 : Str) :
    Option Str :=
  if stripStage strip_chars text0 = [] then none
  else some (escape keep_tags (stripStage strip_chars text0))

/-- Source `get_text`, as the composition of its gathering and normalization
stages. -/
def get_text (keep_tags : List Str) (element : SelElem) (strip_chars : Option Str)
    (level : Option Str) (sels : Option Selectors) : Except PyErr (Option Str) :=
  match getRawText element level sels with
  | Except.error e => Except.error e
  | Except.ok text0 => Except.ok (normalizeText keep_tags strip_chars text0)

/-- A Python value that `get_text_from_nodes` can return: `None`, a string,
or a scalar that a selector computed (count or boolean). -/
inductive PyVal where
  | vNone
  | vStr (s : Str)
  | vInt (n : Int)
  | vBool (b : Bool)
deriving DecidableEq, Repr

/-- The argument of `get_text_from_nodes`: either a list of selected
elements, or any non-list value (`isinstance(elements, list)` is false). -/
inductive SelVal where
  | nodes (l : List SelElem)
  | other (v : PyVal)

/-- The per-element `get_text` runs of `get_text_from_nodes`' list
comprehension, in element order; the first raised exception propagates.
(The comprehension calls the pure `get_text` twice per element, once in the
filter and once for the value, so one call per element is observationally
identical.) -/
def mapGetText (keep_tags : List Str) (strip_chars : Option Str) (level : Option Str)
    (sels : Option Selectors) : List SelElem → Except PyErr (List (Option Str))
  | [] => Except.ok []
  | e :: rest =>
    match get_text keep_tags e strip_chars level sels with
    | Except.error err => Except.error err
    | Except.ok t =>
      match mapGetText keep_tags strip_chars level sels rest with
      | Except.error err => Except.error err
      | Except.ok ts => Except.ok (t :: ts)

/-- Source `get_text_from_nodes`: a non-list argument is returned unchanged;
an empty list gives `None`; otherwise `get_text` runs per element, `None`
results are dropped, survivors are joined with one space, and an empty join
gives `None`, else the selective unescape is applied. -/
def get_text_from_nodes (keep_tags : List Str) (elements : SelVal)
    (strip_chars : Option Str) (level : Option Str) (sels : Option Selectors) :
    Except PyErr PyVal :=
  match elements with
  | SelVal.other v => Except.ok v
  | SelVal.nodes [] => Except.ok PyVal.vNone
  | SelVal.nodes (e :: rest) =>
    match mapGetText keep_tags strip_chars level sels (e :: rest) with
    | Except.error err => Except.error err
    | Except.ok texts =>
      if List.intercalate [' '] (texts.filterMap id) = [] then Except.ok PyVal.vNone
      else Except.ok (PyVal.vStr (escape keep_tags (List.intercalate [' '] (texts.filterMap id))))

/-- The integer value of the digit run captured by `lvl([0-9]*)`. -/
def digitsVal (ds : Str) : Nat := ds.foldl (fun a c => a * 10 + (c.toNat - 48)) 0

/-- Source `get_level_weight`: `re.match(r'lvl([0-9]*)', level)` anchors at
the start, so a name starting with `"lvl"` matches, with the maximal digit
run after that prefix as group 1 (trailing text is ignored); `int` of the
group gives `100 - 10*N`, and `int('')` on an empty group raises
`ValueError`.  A name not starting with `"lvl"` does not match and gives
`0`. -/
def get_level_weight (level : Str) : Except PyErr Int :=
  if isSubAt (str "lvl") level then
    let ds := (level.drop 3).takeWhile Char.isDigit
    if ds = [] then Except.error PyErr.valueError
    else Except.ok (100 - (digitsVal ds : Int) * 10)
  else Except.ok 0

/-- A CSS exclusion selector, in the two forms the refutation and the no-op
property need: a tag-name selector `t`, and an adjacent-sibling selector
`a + b` (an element with tag `b` whose previous sibling element has tag
`a`).  The external engine evaluates a selector against the current tree and
returns its matches in document order. -/
inductive CssSel where
  | tagIs (t : Str)
  | adjTag (a b : Str)
deriving DecidableEq, Repr

/-- Whether a node matches a selector, given the tag of its previous sibling
element in the tree the selector was evaluated against. -/
def selMatches (sel : CssSel) (prevTag : Option HTag) (n : HNode) : Bool :=
  match sel with
  | CssSel.tagIs t => n.tag == HTag.tstr t
  | CssSel.adjTag a b => n.tag == HTag.tstr b && prevTag == some (HTag.tstr a)

mutual
/-- One `remove_from_dom` round for a single selector: the matches are
determined against the tree as it stands (`selMatches` with the original
sibling context) and every matched element is dropped with `lxml`'s
`drop_tree` semantics, in document order.  Dropping a matched element inside
an already-dropped subtree only mutates the detached subtree, so it does not
affect the resulting document and is not modelled separately. -/
def removeNode (sel : CssSel) (n : HNode) : HNode :=
  match n with
  | .mk tag attrs text children tail =>
    let res := removeChildren sel none children
    .mk tag attrs (text ++ res.1) res.2 tail

/-- Processes one children list for `removeNode`.  Returns the text that
`drop_tree` merged into the parent's inline text (the tails of dropped
children that had no preceding kept sibling) and the surviving children; a
dropped child's tail is appended to the preceding kept sibling's tail, in
document order, exactly as `drop_tree` appends it to `getprevious()`. -/
def removeChildren (sel : CssSel) (prevTag : Option HTag) (l : List HNode) :
    Str × List HNode :=
  match l with
  | [] => ([], [])
  | e :: rest =>
    let res := removeChildren sel (some e.tag) rest
    if selMatches sel prevTag e then
      (e.tail ++ res.1, res.2)
    else
      ([], setTail (removeNode sel e) (e.tail ++ res.1) :: res.2)
end

/-- Source `remove_from_dom`: each exclusion selector in order is evaluated
against the current tree and all its matches are dropped.  The root element
itself is the container handed in by the caller and is not dropped. -/
def remove_from_dom (dom : HNode) (exclude_selectors : List CssSel) : HNode :=
  exclude_selectors.foldl (fun d sel => removeNode sel d) dom

mutual
/-- Whether any element strictly below a node matches the selector (with
original sibling context); the root itself is not tested, mirroring
`remove_from_dom`'s container root. -/
def anyMatchNode (sel : CssSel) : HNode → Bool
  | .mk _ _ _ children _ => anyMatchList sel none children

/-- List form of `anyMatchNode`, carrying the previous-sibling context. -/
def anyMatchList (sel : CssSel) (prevTag : Option HTag) : List HNode → Bool
  | [] => false
  | e :: rest =>
    selMatches sel prevTag e || anyMatchNode sel e || anyMatchList sel (some e.tag) rest
end

/-- Concatenation of the tails of a list of nodes. -/
def joinTails : List HNode → Str
  | [] => []
  | n :: ns => n.tail ++ joinTails ns

mutual
/-- Whether `pat` occurs (as a Python substring) in any inline text or tail
of the tree rooted at a node. -/
def occursText (pat : Str) : HNode → Bool
  | .mk _ _ text children tail =>
    hasSub pat text || hasSub pat tail || occursTextList pat children

/-- List form of `occursText`. -/
def occursTextList (pat : Str) : List HNode → Bool
  | [] => false
  | e :: rest => occursText pat e || occursTextList pat rest
end

/-- The previous-sibling tag context of the element that follows `pre`, when
the children list is entered with context `p`. -/
def ctxAfter : Option HTag → List HNode → Option HTag
  | p, [] => p
  | _, e :: rest => ctxAfter (some e.tag) rest

/-- A Bool test for the regex detail of claim C2: true when the string is
empty or starts with a non-digit, i.e. when `[0-9]*` captures nothing at this
position. -/
def headNotDigit : Str → Bool
  | [] => true
  | c :: _ => !c.isDigit

/-! Concrete instances used by the claim theorems, witnesses and
counterexamples. -/

/-- A level configuration with every optional feature present but set to
Python `None`: no strip-characters override, no class exclusion, no meta-tag
mode, no markup preservation. -/
def cfgOff : LevelCfg :=
  ⟨KeyVal.val none, KeyVal.val none, KeyVal.val none, KeyVal.val none⟩

/-- A selectors set with the all-disabled `content` level. -/
def selsOff : Selectors := [(str "content", cfgOff)]

/-- The `<b>B</b>` child of `exP`, with tail text `C`. -/
def exB : HNode := HNode.mk (HTag.tstr (str "b")) [] (str "B") [] (str "C")

/-- The node `<p>A<b>B</b>C</p>` of claim C4. -/
def exP : HNode := HNode.mk (HTag.tstr (str "p")) [] (str "A") [exB] []

/-- A level configuration enabling meta-tag mode only. -/
def cfgMeta : LevelCfg :=
  ⟨KeyVal.val none, KeyVal.val none, KeyVal.val (some true), KeyVal.val none⟩

/-- A selectors set whose `lvlm` level is in meta-tag mode. -/
def selsMeta : Selectors := [(str "lvlm", cfgMeta)]

/-- A `<meta content="desc" name="d">` node that also has inline text, to
show the text is ignored in meta-tag mode. -/
def metaDesc : HNode :=
  HNode.mk (HTag.tstr (str "meta")) [(str "content", str "desc"), (str "name", str "d")]
    (str "ignored") [] []

/-- A `<meta>` node with no `content` attribute. -/
def metaBare : HNode := HNode.mk (HTag.tstr (str "meta")) [] [] [] []

/-- A level configuration keeping tag `em` with allowed attribute `class`. -/
def cfgKeep : LevelCfg :=
  ⟨KeyVal.val none, KeyVal.val none, KeyVal.val none,
   KeyVal.val (some [(str "em", some [str "class"])])⟩

/-- A selectors set whose `lvl1` level keeps `em` markup. -/
def selsKeep : Selectors := [(str "lvl1", cfgKeep)]

/-- The node `<em class="x" id="y">hi</em>` of claim C7. -/
def exEm : HNode :=
  HNode.mk (HTag.tstr (str "em")) [(str "class", str "x"), (str "id", str "y")]
    (str "hi") [] []

/-- A level configuration excluding class-name substring `foo`. -/
def cfgExcl : LevelCfg :=
  ⟨KeyVal.val none, KeyVal.val (some [str "foo"]), KeyVal.val none, KeyVal.val none⟩

/-- A selectors set whose `lvl0` level excludes `foo`. -/
def selsExcl : Selectors := [(str "lvl0", cfgExcl)]

/-- A `<div class="foo-bar">` node with a child whose own class is not
excluded. -/
def exFooBar : HNode :=
  HNode.mk (HTag.tstr (str "div")) [(str "class", str "foo-bar")] (str "X")
    [HNode.mk (HTag.tstr (str "span")) [(str "class", str "ok")] (str "Y") [] []] []

/-- A level configuration whose class-exclusion list contains the empty
string. -/
def cfgExclEmpty : LevelCfg :=
  ⟨KeyVal.val none, KeyVal.val (some [([] : Str)]), KeyVal.val none, KeyVal.val none⟩

/-- A selectors set whose `lvl0` level excludes the empty string. -/
def selsExclEmpty : Selectors := [(str "lvl0", cfgExclEmpty)]

/-- A level configuration whose dictionary has none of the four optional
keys: every per-level field lookup raises `KeyError` inside the getters. -/
def cfgAllMissing : LevelCfg :=
  ⟨KeyVal.missing, KeyVal.missing, KeyVal.missing, KeyVal.missing⟩

/-- A selectors set whose `lvl0` level is present but has no per-level
keys. -/
def selsMissingFields : Selectors := [(str "lvl0", cfgAllMissing)]

/-- A plain `<p>text</p>` node without a `class` attribute. -/
def exNoClass : HNode := HNode.mk (HTag.tstr (str "p")) [] (str "text") [] []

/-- The tree `<div><a/><p/></div>` of the claim C9 counterexample. -/
def exDivAP : HNode :=
  HNode.mk (HTag.tstr (str "div")) [] []
    [HNode.mk (HTag.tstr (str "a")) [] [] [] [],
     HNode.mk (HTag.tstr (str "p")) [] [] [] []] []

/-- The tag selector `a`. -/
def selA : CssSel := CssSel.tagIs (str "a")

/-- The adjacent-sibling selector `a + p`. -/
def selAP : CssSel := CssSel.adjTag (str "a") (str "p")

/-- The `<nav>menu</nav>` node with tail `T1`. -/
def exNav : HNode := HNode.mk (HTag.tstr (str "nav")) [] (str "menu") [] (str "T1")

/-- The `<p>body</p>` node with tail `T2`. -/
def exNavP : HNode := HNode.mk (HTag.tstr (str "p")) [] (str "body") [] (str "T2")

/-- The tree `<div>H<nav>menu</nav>T1<p>body</p>T2</div>` used to witness
tail preservation. -/
def exNavDiv : HNode :=
  HNode.mk (HTag.tstr (str "div")) [] (str "H") [exNav, exNavP] []

/-- The inner `<x/>` with tail `T` of the claim C10 counterexample. -/
def exInnerX : HNode := HNode.mk (HTag.tstr (str "x")) [] [] [] (str "T")

/-- The tree `<div><x><x/>T</x></div>`: a matched element nested inside a
matched element, with tail text `T`. -/
def exNestedX : HNode :=
  HNode.mk (HTag.tstr (str "div")) [] []
    [HNode.mk (HTag.tstr (str "x")) [] [] [exInnerX] []] []

/-! Helper lemmas. -/

/-- A string is a prefix of itself extended by anything. -/
theorem isSubAt_self_app : ∀ (x y : Str), isSubAt x (x ++ y) = true := by
  intro x y
  induction x with
  | nil => rfl
  | cons p ps ih => simp [isSubAt, ih]

/-- A string occurs in itself extended on the right. -/
theorem hasSub_self_app : ∀ (x y : Str), hasSub x (x ++ y) = true := by
  intro x y
  match x with
  | [] =>
    match y with
    | [] => rfl
    | c :: cs => rfl
  | c :: cs =>
    have h1 : isSubAt (c :: cs) (c :: (cs ++ y)) = true := by
      simpa using isSubAt_self_app (c :: cs) y
    simp [hasSub, h1]

/-- Substring occurrence survives extending the searched string on the
left. -/
theorem hasSub_app_left : ∀ (w x s : Str), hasSub x s = true → hasSub x (w ++ s) = true := by
  intro w x s h
  induction w with
  | nil => simpa using h
  | cons a w ih => simp [hasSub, ih]

/-- Prefix matching survives extending the searched string on the right. -/
theorem isSubAt_app_right : ∀ (x s w : Str), isSubAt x s = true → isSubAt x (s ++ w) = true := by
  intro x
  induction x with
  | nil => intro s w _; rfl
  | cons p ps ih =>
    intro s w h
    match s with
    | [] => simp [isSubAt] at h
    | c :: cs =>
      rw [isSubAt] at h
      rcases (Bool.and_eq_true _ _).mp h with ⟨hpc, hrest⟩
      rw [List.cons_append, isSubAt, hpc]
      simpa using ih cs w hrest

/-- Substring occurrence survives extending the searched string on the
right. -/
theorem hasSub_app_right : ∀ (x s w : Str), hasSub x s = true → hasSub x (s ++ w) = true := by
  intro x s w h
  induction s with
  | nil =>
    have hx : x = [] := by
      cases x with
      | nil => rfl
      | cons c cs => simp [hasSub] at h
    subst hx
    exact hasSub_self_app [] w
  | cons c cs ih =>
    rw [List.cons_append]
    rw [hasSub] at h ⊢
    rcases (Bool.or_eq_true _ _).mp h with h1 | h2
    · apply (Bool.or_eq_true _ _).mpr
      left
      exact isSubAt_app_right x (c :: cs) w h1
    · apply (Bool.or_eq_true _ _).mpr
      right
      exact ih h2

/-- Replacing with a non-empty replacement never empties a non-empty
string. -/
theorem replaceAll_ne_nil : ∀ (pat rep s : Str), rep ≠ [] → s ≠ [] →
    replaceAll pat rep s ≠ [] := by
  intro pat rep s hrep hs
  match s with
  | [] => exact absurd rfl hs
  | c :: cs =>
    rw [replaceAll]
    simp only [List.length_cons]
    rw [replaceAllF]
    split
    · intro hcontra
      rw [List.append_eq_nil] at hcontra
      exact hrep hcontra.1
    · exact List.cons_ne_nil _ _

/-- One keep-tag pass of `escape` never empties a non-empty string. -/
theorem escapeTagStep_ne_nil : ∀ (acc tag : Str), acc ≠ [] →
    escapeTagStep acc tag ≠ [] := by
  intro acc tag hacc
  rw [escapeTagStep]
  apply replaceAll_ne_nil
  · show '<' :: ('/' :: (tag ++ str ">")) ≠ []
    exact List.cons_ne_nil _ _
  · apply replaceAll_ne_nil
    · show '<' :: (tag ++ str ">") ≠ []
      exact List.cons_ne_nil _ _
    · exact hacc

/-- The keep-tags fold of `escape` never empties a non-empty string. -/
theorem foldl_escapeTagStep_ne_nil : ∀ (kt : List Str) (acc : Str), acc ≠ [] →
    List.foldl escapeTagStep acc kt ≠ [] := by
  intro kt
  induction kt with
  | nil => intro acc hacc; exact hacc
  | cons tag rest ih =>
    intro acc hacc
    exact ih (escapeTagStep acc tag) (escapeTagStep_ne_nil acc tag hacc)

/-- The selective unescape of a non-empty string is non-empty. -/
theorem escape_ne_nil : ∀ (kt : List Str) (s : Str), s ≠ [] → escape kt s ≠ [] := by
  intro kt s hs
  rw [escape]
  apply replaceAll_ne_nil
  · exact List.cons_ne_nil _ _
  · exact foldl_escapeTagStep_ne_nil kt s hs

/-- The tail written by `setTail`. -/
theorem setTail_tail : ∀ (n : HNode) (t : Str), (setTail n t).tail = t := by
  intro n t
  cases n
  rfl

/-- Rewriting a node's tail with its own tail is the identity. -/
theorem setTail_self : ∀ (n : HNode), setTail n n.tail = n := by
  intro n
  cases n
  rfl

mutual
/-- A selector without matches below a node leaves the node unchanged. -/
theorem removeNode_noop : ∀ (sel : CssSel) (n : HNode),
    anyMatchNode sel n = false → removeNode sel n = n := by
  intro sel n h
  match n with
  | .mk tag attrs text children tail =>
    have h2 : anyMatchList sel none children = false := by
      simpa [anyMatchNode] using h
    simp [removeNode, removeChildren_noop sel none children h2]
/-- A selector without matches in a children list (at any depth) leaves the
list unchanged and merges nothing into the parent text. -/
theorem removeChildren_noop : ∀ (sel : CssSel) (prevTag : Option HTag) (l : List HNode),
    anyMatchList sel prevTag l = false → removeChildren sel prevTag l = ([], l) := by
  intro sel prevTag l h
  match l with
  | [] => rfl
  | e :: rest =>
    rw [anyMatchList] at h
    have h1 : selMatches sel prevTag e = false := by
      cases hx : selMatches sel prevTag e <;> simp [hx] at h ⊢
    have h2 : anyMatchNode sel e = false := by
      cases hx : anyMatchNode sel e <;> simp [hx] at h ⊢
    have h3 : anyMatchList sel (some e.tag) rest = false := by
      cases hx : anyMatchList sel (some e.tag) rest <;> simp [hx] at h ⊢
    rw [removeChildren, removeChildren_noop sel (some e.tag) rest h3]
    simp [h1, removeNode_noop sel e h2, setTail_self]
end

/-- Tail preservation inside `removeChildren`: a child matched with its
original sibling context contributes its tail to the parent-text component
or to some surviving sibling's tail. -/
theorem removeChildren_tail_sub : ∀ (sel : CssSel) (pre : List HNode) (p0 : Option HTag)
    (e : HNode) (post : List HNode),
    selMatches sel (ctxAfter p0 pre) e = true →
    hasSub e.tail ((removeChildren sel p0 (pre ++ e :: post)).1 ++
      joinTails (removeChildren sel p0 (pre ++ e :: post)).2) = true := by
  intro sel pre
  induction pre with
  | nil =>
    intro p0 e post h
    rw [List.nil_append, removeChildren]
    rw [ctxAfter] at h
    simp only [h, if_pos]
    have := hasSub_self_app e.tail
      ((removeChildren sel (some e.tag) post).1 ++
        joinTails (removeChildren sel (some e.tag) post).2)
    simpa [List.append_assoc] using this
  | cons p ps ih =>
    intro p0 e post h
    have hctx : ctxAfter p0 (p :: ps) = ctxAfter (some p.tag) ps := by
      rw [ctxAfter]
    rw [hctx] at h
    have ihp := ih (some p.tag) e post h
    rw [List.cons_append, removeChildren]
    cases hm : selMatches sel p0 p with
    | true =>
      simp only [hm, if_pos]
      have := hasSub_app_left p.tail e.tail
        ((removeChildren sel (some p.tag) (ps ++ e :: post)).1 ++
          joinTails (removeChildren sel (some p.tag) (ps ++ e :: post)).2) ihp
      simpa [List.append_assoc] using this
    | false =>
      simp only [hm, Bool.false_eq_true, if_neg, not_false_eq_true]
      rw [List.nil_append, joinTails, setTail_tail]
      have := hasSub_app_left p.tail e.tail
        ((removeChildren sel (some p.tag) (ps ++ e :: post)).1 ++
          joinTails (removeChildren sel (some p.tag) (ps ++ e :: post)).2) ihp
      simpa [List.append_assoc] using this

/-- Digit-run lemma for the regex group of `get_level_weight`: `[0-9]*`
captures exactly the maximal leading digit run. -/
theorem takeWhile_digits_app : ∀ (ds rest : Str), ds.all Char.isDigit = true →
    headNotDigit rest = true → (ds ++ rest).takeWhile Char.isDigit = ds := by
  intro ds
  induction ds with
  | nil =>
    intro rest _ h2
    match rest with
    | [] => rfl
    | c :: cs =>
      rw [headNotDigit] at h2
      have : Char.isDigit c = false := by
        cases hx : c.isDigit <;> simp [hx] at h2 ⊢
      simp [List.takeWhile, this]
  | cons d ds ih =>
    intro rest h1 h2
    rw [List.all_cons] at h1
    rcases (Bool.and_eq_true _ _).mp h1 with ⟨hd, hds⟩
    simp [List.takeWhile, hd, ih rest hds h2]

/-- Shape of the normalization stage: `None`, or a non-empty string. -/
theorem normalizeText_shape : ∀ (kt : List Str) (sc : Option Str) (t0 : Str),
    normalizeText kt sc t0 = none ∨
    ∃ s, normalizeText kt sc t0 = some s ∧ s ≠ [] := by
  intro kt sc t0
  by_cases h : stripStage sc t0 = []
  · left
    simp [normalizeText, h]
  · right
    refine ⟨escape kt (stripStage sc t0), ?_, escape_ne_nil kt _ h⟩
    simp [normalizeText, h]

/-! Claim theorems. -/

/-- Claim C4 (confirmed): for `<p>A<b>B</b>C</p>` at a level with no markup
preservation, no class exclusion and no meta-tag mode, the walker yields
exactly the ordered fragments `A`, `B`, `C` — node text first, then the
child's fragment, then the child's non-empty tail — and the assembler joins
them to `A B C`. -/
theorem claim_C4 :
    itertext exP (some (str "content")) (some selsOff) =
      Except.ok [str "A", str "B", str "C"] ∧
    get_text [] (SelElem.eNode exP) none (some (str "content")) (some selsOff) =
      Except.ok (some (str "A B C")) := by decide

/-- Claim C7 (confirmed): with `keep_tags` mapping `em` to `["class"]`, the
node `<em class="x" id="y">hi</em>` yields the single wrapper fragment
`<em class='x'>hi</em>`: `id` is dropped, `class` survives in original
attribute order, and the text is wrapped in the reconstructed minimal tag. -/
theorem claim_C7 :
    itertext exEm (some (str "lvl1")) (some selsKeep) =
      Except.ok [str "<em class=" ++ squote :: str "x" ++ squote :: str ">hi</em>"] ∧
    get_allowed_node_attrs exEm (some (str "lvl1")) (some selsKeep) =
      some [(str "class", str "x")] := by decide

/-- Claim C2 counterexample: on the name `lvl` — which is not `"lvl"`
followed by digits, so the claim demands the result `0` — the code raises
`ValueError` (the regex `lvl([0-9]*)` matches with an empty group and
`int('')` raises). -/
theorem claim_C2_counterexample :
    get_level_weight (str "lvl") = Except.error PyErr.valueError := by decide

/-- Claim C2 (amended): a name not starting with `lvl` weighs `0`; a name
starting with `lvl` followed by at least one digit weighs `100 - 10*N` for
`N` the value of the maximal digit run (trailing text ignored); a name
starting with `lvl` with no digit after it raises `ValueError`; and
`lvl0 ↦ 100`, `lvl3 ↦ 70`, `content ↦ 0`. -/
theorem claim_C2_amended :
    (∀ level : Str, isSubAt (str "lvl") level = false →
      get_level_weight level = Except.ok 0) ∧
    (∀ rest : Str, headNotDigit rest = true →
      get_level_weight (str "lvl" ++ rest) = Except.error PyErr.valueError) ∧
    (∀ ds rest : Str, ds ≠ [] → ds.all Char.isDigit = true → headNotDigit rest = true →
      get_level_weight (str "lvl" ++ ds ++ rest) =
        Except.ok (100 - (digitsVal ds : Int) * 10)) ∧
    get_level_weight (str "lvl0") = Except.ok 100 ∧
    get_level_weight (str "lvl3") = Except.ok 70 ∧
    get_level_weight (str "content") = Except.ok 0 := by
  refine ⟨?_, ?_, ?_, by decide, by decide, by decide⟩
  · intro level h
    simp [get_level_weight, h]
  · intro rest h
    have hpre : isSubAt (str "lvl") (str "lvl" ++ rest) = true := isSubAt_self_app _ _
    have hdrop : (str "lvl" ++ rest).drop 3 = rest := rfl
    have htw : rest.takeWhile Char.isDigit = [] := by
      have := takeWhile_digits_app [] rest rfl h
      simpa using this
    simp [get_level_weight, hpre, hdrop, htw]
  · intro ds rest hne hall hnd
    have hassoc : str "lvl" ++ ds ++ rest = str "lvl" ++ (ds ++ rest) :=
      List.append_assoc _ _ _
    rw [hassoc]
    have hpre : isSubAt (str "lvl") (str "lvl" ++ (ds ++ rest)) = true := isSubAt_self_app _ _
    have hdrop : (str "lvl" ++ (ds ++ rest)).drop 3 = ds ++ rest := rfl
    have htw : (ds ++ rest).takeWhile Char.isDigit = ds := takeWhile_digits_app ds rest hall hnd
    simp [get_level_weight, hpre, hdrop, htw, hne]

/-- Claim C2 witness: the amended characterization applied at `content`,
`lvlnext` and `lvl42`. -/
theorem claim_C2_witness :
    get_level_weight (str "content") = Except.ok 0 ∧
    get_level_weight (str "lvlnext") = Except.error PyErr.valueError ∧
    get_level_weight (str "lvl42") = Except.ok (-320) := by
  refine ⟨claim_C2_amended.1 (str "content") (by decide), ?_, ?_⟩
  · show get_level_weight (str "lvl" ++ str "next") = Except.error PyErr.valueError
    exact claim_C2_amended.2.1 (str "next") (by decide)
  · show get_level_weight (str "lvl" ++ str "42" ++ str "") = Except.ok (-320)
    exact (claim_C2_amended.2.2.1 (str "42") (str "") (by decide) (by decide)
      (by decide)).trans (by decide)

/-- Claim C3 counterexample: `get_strip_chars` is a configuration lookup
performed during extraction, and on a level absent from the selector set it
raises `KeyError` instead of returning a default. -/
theorem claim_C3_counterexample :
    get_strip_chars (some (str "#")) (str "lvl0") [] = Except.error PyErr.keyError := by
  decide

/-- Claim C3 (amended): the guarded lookups — `classname_exclude`,
`meta_tag`, `keep_tags` — return their disabled defaults and never raise,
whether the `selectors[level]` subscript fails (level absent, selectors
`None`), the per-level key is absent from the level's dictionary, or the
stored value is the malformed `None`; `get_strip_chars`, however, raises
`KeyError` when the level is absent from the selector set or when the level
lacks the `strip_chars` key. -/
theorem claim_C3_amended :
    (∀ (level : Option Str) (sels : Option Selectors) (n : HNode) (e : PyErr),
      subscriptLevel sels level = Except.error e →
      get_classnames_to_skip level sels = none ∧
      use_meta_content level sels = false ∧
      get_allowed_node_attrs n level sels = none) ∧
    (∀ (level : Option Str) (sels : Option Selectors) (n : HNode) (cfg : LevelCfg),
      subscriptLevel sels level = Except.ok cfg →
      ((cfg.classname_exclude = KeyVal.missing ∨ cfg.classname_exclude = KeyVal.val none) →
        get_classnames_to_skip level sels = none) ∧
      ((cfg.meta_tag = KeyVal.missing ∨ cfg.meta_tag = KeyVal.val none) →
        use_meta_content level sels = false) ∧
      ((cfg.keep_tags = KeyVal.missing ∨ cfg.keep_tags = KeyVal.val none) →
        get_allowed_node_attrs n level sels = none)) ∧
    (∀ (g : Option Str) (level : Str) (sels : Selectors),
      lookupDict sels level = Except.error PyErr.keyError →
      get_strip_chars g level sels = Except.error PyErr.keyError) ∧
    (∀ (g : Option Str) (level : Str) (sels : Selectors) (cfg : LevelCfg),
      lookupDict sels level = Except.ok cfg → cfg.strip_chars = KeyVal.missing →
      get_strip_chars g level sels = Except.error PyErr.keyError) := by
  refine ⟨?_, ?_, ?_, ?_⟩
  · intro level sels n e h
    refine ⟨?_, ?_, ?_⟩
    · simp [get_classnames_to_skip, h, pyTry]
    · simp [use_meta_content, h, pyTry]
    · simp [get_allowed_node_attrs, h, pyTry]
  · intro level sels n cfg h
    refine ⟨?_, ?_, ?_⟩
    · intro hf
      rcases hf with hf | hf <;> simp [get_classnames_to_skip, h, hf, getKey, pyTry]
    · intro hf
      rcases hf with hf | hf <;> simp [use_meta_content, h, hf, getKey, pyTry]
    · intro hf
      rcases hf with hf | hf <;> simp [get_allowed_node_attrs, h, hf, getKey, pyTry]
  · intro g level sels h
    simp [get_strip_chars, h]
  · intro g level sels cfg h1 h2
    simp [get_strip_chars, h1, h2, getKey]

/-- Claim C3 witness: the amended statement applied at a level absent from
an empty selector set, and at a present level whose dictionary lacks all
four per-level keys. -/
theorem claim_C3_witness :
    (get_classnames_to_skip (some (str "lvl9")) (some []) = none ∧
     use_meta_content (some (str "lvl9")) (some []) = false ∧
     get_allowed_node_attrs exNoClass (some (str "lvl9")) (some []) = none) ∧
    (get_classnames_to_skip (some (str "lvl0")) (some selsMissingFields) = none ∧
     use_meta_content (some (str "lvl0")) (some selsMissingFields) = false ∧
     get_allowed_node_attrs exNoClass (some (str "lvl0")) (some selsMissingFields) = none) := by
  constructor
  · exact claim_C3_amended.1 (some (str "lvl9")) (some []) exNoClass PyErr.keyError (by decide)
  · have h := claim_C3_amended.2.1 (some (str "lvl0")) (some selsMissingFields) exNoClass
      cfgAllMissing (by decide)
    exact ⟨h.1 (Or.inl rfl), h.2.1 (Or.inl rfl), h.2.2 (Or.inl rfl)⟩

/-- Claim C1 counterexample: under a meta-tag-mode level, a `<meta>` node
with no `content` attribute raises `KeyError` (the subscript
`node.attrib['content']` is unguarded) instead of emitting the empty
string. -/
theorem claim_C1_counterexample :
    itertext metaBare (some (str "lvlm")) (some selsMeta) = Except.error PyErr.keyError := by
  decide

/-- Claim C1 (amended): for every node that passes the emission guard
(non-empty inline text, or tag `img` or `meta`) and is not skipped, under a
meta-tag-mode level whose `content` attribute lookup yields `v` and with no
markup preservation for the tag, the walker emits `v` as the node's fragment
— regardless of the node's inline text — followed by the children's
fragments; a node lacking the attribute raises `KeyError` instead.  In
particular `<meta content="desc">` yields the fragment `desc`. -/
theorem claim_C1_amended : ∀ (n : HNode) (level : Option Str) (sels : Option Selectors)
    (v : Str),
    n.tag ≠ HTag.tother →
    will_skip_node n level sels = false →
    (n.text ≠ [] ∨ n.tag = HTag.tstr (str "img") ∨ n.tag = HTag.tstr (str "meta")) →
    use_meta_content level sels = true →
    get_allowed_node_attrs n level sels = none →
    get_meta_content n = Except.ok v →
    itertext n level sels =
      Except.map (fun rest => v :: rest) (itertextList n.children level sels) := by
  intro n level sels v htag hskip hguard hmeta hkeep hcontent
  have hhead : itertextHead n level sels = Except.ok [v] := by
    rw [itertextHead, if_pos hguard, hmeta]
    simp [hcontent, hkeep]
  match n with
  | .mk tag attrs text children tail =>
    cases tag with
    | tother => exact absurd rfl htag
    | tstr t =>
      cases hL : itertextList children level sels with
      | error e => simp [itertext, HNode.children, hskip, hhead, hL, Except.map]
      | ok rest => simp [itertext, HNode.children, hskip, hhead, hL, Except.map]
    | tnone =>
      cases hL : itertextList children level sels with
      | error e => simp [itertext, HNode.children, hskip, hhead, hL, Except.map]
      | ok rest => simp [itertext, HNode.children, hskip, hhead, hL, Except.map]

/-- Claim C1 witness: the amended statement applied to
`<meta content="desc" name="d">ignored</meta>` under the meta-tag-mode
level, giving exactly the fragment `desc`. -/
theorem claim_C1_witness :
    itertext metaDesc (some (str "lvlm")) (some selsMeta) = Except.ok [str "desc"] := by
  have h := claim_C1_amended metaDesc (some (str "lvlm")) (some selsMeta) (str "desc")
    (by decide) (by decide) (by decide) (by decide) (by decide) (by decide)
  exact h.trans (by decide)

/-- Claim C5 counterexample: `get_text_from_nodes` on the non-list scalar
`""` returns the empty string unchanged — a returned string that is neither
`None` nor non-empty, so empty strings do escape through the scalar
pass-through. -/
theorem claim_C5_counterexample :
    get_text_from_nodes [] (SelVal.other (PyVal.vStr [])) none none none =
      Except.ok (PyVal.vStr []) := by decide

/-- Claim C5 (amended): every value produced by the assembly paths is `None`
or a non-empty string — `get_text` always, and `get_text_from_nodes` on list
input; a non-list scalar (including an empty string) is passed through
unchanged and is exempt. -/
theorem claim_C5_amended :
    (∀ (kt : List Str) (el : SelElem) (sc : Option Str) (level : Option Str)
        (sels : Option Selectors) (r : Option Str),
      get_text kt el sc level sels = Except.ok r →
      r = none ∨ ∃ s, r = some s ∧ s ≠ []) ∧
    (∀ (kt : List Str) (l : List SelElem) (sc : Option Str) (level : Option Str)
        (sels : Option Selectors) (r : PyVal),
      get_text_from_nodes kt (SelVal.nodes l) sc level sels = Except.ok r →
      r = PyVal.vNone ∨ ∃ s, r = PyVal.vStr s ∧ s ≠ []) := by
  constructor
  · intro kt el sc level sels r h
    rw [get_text] at h
    cases hX : getRawText el level sels with
    | error e => rw [hX] at h; exact Except.noConfusion h
    | ok t0 =>
      rw [hX] at h
      have hr : normalizeText kt sc t0 = r := by injection h
      rw [← hr]
      exact normalizeText_shape kt sc t0
  · intro kt l sc level sels r h
    match l with
    | [] =>
      rw [get_text_from_nodes] at h
      have hr : PyVal.vNone = r := by injection h
      exact Or.inl hr.symm
    | e :: rest =>
      rw [get_text_from_nodes] at h
      cases hM : mapGetText kt sc level sels (e :: rest) with
      | error err => rw [hM] at h; exact Except.noConfusion h
      | ok texts =>
        rw [hM] at h
        have h2 : (if List.intercalate [' '] (texts.filterMap id) = [] then
            Except.ok PyVal.vNone
          else Except.ok
            (PyVal.vStr (escape kt (List.intercalate [' '] (texts.filterMap id))))) =
            Except.ok r := h
        by_cases ht : List.intercalate [' '] (texts.filterMap id) = []
        · rw [if_pos ht] at h2
          have hr : PyVal.vNone = r := by injection h2
          exact Or.inl hr.symm
        · rw [if_neg ht] at h2
          have hr : PyVal.vStr (escape kt (List.intercalate [' '] (texts.filterMap id))) = r := by
            injection h2
          exact Or.inr ⟨escape kt (List.intercalate [' '] (texts.filterMap id)), hr.symm,
            escape_ne_nil kt _ ht⟩

/-- Claim C5 witness: the amended statement applied to a one-string element
and to a whitespace-only element list. -/
theorem claim_C5_witness :
    ((some (str "hi") : Option Str) = none ∨
      ∃ s, (some (str "hi") : Option Str) = some s ∧ s ≠ []) ∧
    (PyVal.vNone = PyVal.vNone ∨ ∃ s, PyVal.vNone = PyVal.vStr s ∧ s ≠ []) := by
  constructor
  · exact claim_C5_amended.1 [] (SelElem.eStr (str " hi ")) none none none
      (some (str "hi")) (by decide)
  · exact claim_C5_amended.2 [] [SelElem.eStr (str "  ")] none none none
      PyVal.vNone (by decide)

/-- Claim C6 (confirmed): a non-list value passes through unchanged; an
empty list gives `None`; a non-empty list runs `get_text` per element, drops
`None` results, joins survivors with one space, gives `None` on an empty
join and otherwise applies the selective unescape; an exception from a
per-element run propagates. -/
theorem claim_C6 :
    (∀ (kt : List Str) (v : PyVal) (sc : Option Str) (level : Option Str)
        (sels : Option Selectors),
      get_text_from_nodes kt (SelVal.other v) sc level sels = Except.ok v) ∧
    (∀ (kt : List Str) (sc : Option Str) (level : Option Str) (sels : Option Selectors),
      get_text_from_nodes kt (SelVal.nodes []) sc level sels = Except.ok PyVal.vNone) ∧
    (∀ (kt : List Str) (e : SelElem) (rest : List SelElem) (sc : Option Str)
        (level : Option Str) (sels : Option Selectors) (texts : List (Option Str)),
      mapGetText kt sc level sels (e :: rest) = Except.ok texts →
      get_text_from_nodes kt (SelVal.nodes (e :: rest)) sc level sels =
        (if List.intercalate [' '] (texts.filterMap id) = [] then Except.ok PyVal.vNone
         else Except.ok
           (PyVal.vStr (escape kt (List.intercalate [' '] (texts.filterMap id)))))) ∧
    (∀ (kt : List Str) (e : SelElem) (rest : List SelElem) (sc : Option Str)
        (level : Option Str) (sels : Option Selectors) (err : PyErr),
      mapGetText kt sc level sels (e :: rest) = Except.error err →
      get_text_from_nodes kt (SelVal.nodes (e :: rest)) sc level sels =
        Except.error err) := by
  refine ⟨fun kt v sc level sels => rfl, fun kt sc level sels => rfl, ?_, ?_⟩
  · intro kt e rest sc level sels texts hM
    rw [get_text_from_nodes, hM]
  · intro kt e rest sc level sels err hM
    rw [get_text_from_nodes, hM]

/-- Claim C6 witness: the list clause applied to two string elements, one of
which needs stripping. -/
theorem claim_C6_witness :
    get_text_from_nodes [] (SelVal.nodes [SelElem.eStr (str " a "), SelElem.eStr (str "b")])
      none none none = Except.ok (PyVal.vStr (str "a b")) := by
  have h := claim_C6.2.2.1 [] (SelElem.eStr (str " a ")) [SelElem.eStr (str "b")]
    none none none [some (str "a"), some (str "b")] (by decide)
  exact h.trans (by decide)

/-- Claim C8 counterexample: with the configured exclusion list containing
the empty string, a node with no `class` attribute (classname `""`) is
skipped — Python `'' in ''` is `True` — contradicting "a node without a
class attribute is never skipped". -/
theorem claim_C8_counterexample :
    get_node_classname exNoClass = ([] : Str) ∧
    will_skip_node exNoClass (some (str "lvl0")) (some selsExclEmpty) = true ∧
    itertext exNoClass (some (str "lvl0")) (some selsExclEmpty) = Except.ok [] := by
  decide

/-- Claim C8 (amended): a skipped node contributes no fragment and its
subtree is never visited (so a descendant's class cannot resurrect it);
matching is substring containment, e.g. class `foo-bar` matches rule `foo`;
a node without a `class` attribute is treated as having class `""` and is
skipped exactly when some configured entry is the empty string. -/
theorem claim_C8_amended :
    (∀ (n : HNode) (level : Option Str) (sels : Option Selectors),
      will_skip_node n level sels = true → itertext n level sels = Except.ok []) ∧
    (∀ (n : HNode) (level : Option Str) (sels : Option Selectors) (cs : List Str),
      get_classnames_to_skip level sels = some cs → get_node_classname n = [] →
      will_skip_node n level sels = cs.any (fun c => c.isEmpty)) ∧
    will_skip_node exFooBar (some (str "lvl0")) (some selsExcl) = true := by
  refine ⟨?_, ?_, by decide⟩
  · intro n level sels h
    match n with
    | .mk tag attrs text children tail =>
      cases tag with
      | tother => simp [itertext]
      | tstr t => simp [itertext, h]
      | tnone => simp [itertext, h]
  · intro n level sels cs h1 h2
    simp only [will_skip_node, h1, h2, hasSub]

/-- Claim C8 witness: the amended statement applied to the excluded
`foo-bar` node and to the class-less node under the empty-string rule. -/
theorem claim_C8_witness :
    itertext exFooBar (some (str "lvl0")) (some selsExcl) = Except.ok [] ∧
    will_skip_node exNoClass (some (str "lvl0")) (some selsExclEmpty) =
      [([] : Str)].any (fun c => c.isEmpty) := by
  constructor
  · exact claim_C8_amended.1 exFooBar (some (str "lvl0")) (some selsExcl) (by decide)
  · exact claim_C8_amended.2.1 exNoClass (some (str "lvl0")) (some selsExclEmpty)
      [([] : Str)] (by decide) (by decide)

/-- Claim C9 counterexample: on `<div><a/><p/></div>` with the selectors
`a` and `a + p`, the two application orders give different final trees
(applying `a` first removes the adjacency, so `a + p` no longer matches). -/
theorem claim_C9_counterexample :
    (remove_from_dom exDivAP [selA, selAP]).children.length = 1 ∧
    (remove_from_dom exDivAP [selAP, selA]).children.length = 0 := by decide

/-- Claim C9 (amended): selectors are applied in the given order against
the successively mutated tree; a selector matching zero elements is a
no-op, not an error — but the final tree may depend on the order when a
selector's matches depend on structure another selector removes. -/
theorem claim_C9_amended : ∀ (dom : HNode) (sels : List CssSel),
    (∀ sel ∈ sels, anyMatchNode sel dom = false) → remove_from_dom dom sels = dom := by
  intro dom sels
  induction sels with
  | nil => intro _; rfl
  | cons s rest ih =>
    intro h
    have h1 := h s (List.mem_cons_self s rest)
    show List.foldl (fun d sel => removeNode sel d) dom (s :: rest) = dom
    rw [List.foldl_cons, removeNode_noop s dom h1]
    exact ih (fun sel hs => h sel (List.mem_cons_of_mem s hs))

/-- Claim C9 witness: a selector matching nothing in the tree is a no-op. -/
theorem claim_C9_witness :
    remove_from_dom exNavDiv [CssSel.tagIs (str "title")] = exNavDiv := by
  apply claim_C9_amended
  intro sel hs
  rw [List.mem_singleton] at hs
  subst hs
  decide

/-- Claim C10 counterexample: the inner `<x/>` of `<div><x><x/>T</x></div>`
is matched and removed by the filter, yet its tail `T` is absent from the
final document — `drop_tree` merged it into the already detached outer
subtree — so removal does not preserve the tail of every removed element. -/
theorem claim_C10_counterexample :
    selMatches (CssSel.tagIs (str "x")) none exInnerX = true ∧
    occursText (str "T") exNestedX = true ∧
    occursText (str "T") (remove_from_dom exNestedX [CssSel.tagIs (str "x")]) = false := by
  decide

/-- Claim C10 (amended): for every child removed from a parent that itself
survives, the child's tail text is preserved — `drop_tree` merges it into
the parent's inline text or a surviving preceding sibling's tail, so it
still occurs in the resulting tree's text at that level. -/
theorem claim_C10_amended : ∀ (sel : CssSel) (n : HNode) (pre : List HNode) (e : HNode)
    (post : List HNode),
    n.children = pre ++ e :: post →
    selMatches sel (ctxAfter none pre) e = true →
    hasSub e.tail ((removeNode sel n).text ++ joinTails (removeNode sel n).children) = true := by
  intro sel n pre e post hkids hm
  match n with
  | .mk tag attrs text children tail =>
    have hk : children = pre ++ e :: post := hkids
    subst hk
    have h := removeChildren_tail_sub sel pre none e post hm
    have h2 := hasSub_app_left text e.tail
      ((removeChildren sel none (pre ++ e :: post)).1 ++
        joinTails (removeChildren sel none (pre ++ e :: post)).2) h
    simp only [removeNode, HNode.text, HNode.children]
    simpa [List.append_assoc] using h2

/-- Claim C10 witness: dropping `<nav>` from
`<div>H<nav>menu</nav>T1<p>body</p>T2</div>` keeps the tail `T1` in the
surviving tree's text. -/
theorem claim_C10_witness :
    hasSub (str "T1")
      ((removeNode (CssSel.tagIs (str "nav")) exNavDiv).text ++
        joinTails (removeNode (CssSel.tagIs (str "nav")) exNavDiv).children) = true :=
  claim_C10_amended (CssSel.tagIs (str "nav")) exNavDiv [] exNav [exNavP] rfl (by decide)
